import Mathlib

/-!
Verification of the model catalog, validation rules and UI selection engine of
the perplexity-mcp-zerver repository.

The pure functions of `src/utils/model-config.ts` are embedded directly.
JavaScript string builtins (`includes`, `trim`, `toLowerCase`) and the
case-insensitive anchored regular expressions of the banned-name policy are
modelled by executable character-list functions below.
-/

set_option autoImplicit false

/-- Does the second character list start with the first one?
Models the prefix test underlying `String.prototype.includes`. -/
def charsStartWith : List Char → List Char → Bool
  | [], _ => true
  | _ :: _, [] => false
  | p :: ps, c :: cs => p == c && charsStartWith ps cs

/-- Does the second list contain the first as a contiguous run? -/
def charsContain (pat : List Char) : List Char → Bool
  | [] => charsStartWith pat []
  | c :: t => charsStartWith pat (c :: t) || charsContain pat t

/-- Models the JavaScript `s.includes(pat)` substring test. -/
def strContains (s pat : String) : Bool :=
  charsContain pat.data s.data

/-- Whitespace characters stripped by the JavaScript `trim` builtin
(the ASCII whitespace characters plus NBSP and the BOM). -/
def isJsSpace (c : Char) : Bool :=
  c == ' ' || c == '\t' || c == '\n' || c == '\r' ||
    c.toNat == 0x0B || c.toNat == 0x0C || c.toNat == 0xA0 || c.toNat == 0xFEFF

/-- Models the JavaScript `s.trim()` builtin: strip whitespace at both ends. -/
def trimStr (s : String) : String :=
  String.mk (((s.data.dropWhile isJsSpace).reverse.dropWhile isJsSpace).reverse)

/-- Case folding for one character, covering the alphabets that occur in the
catalog and the banned patterns: ASCII letters and Cyrillic letters.  Models
the JavaScript `toLowerCase` builtin and the case-insensitive `i` regex flag
on these alphabets. -/
def foldChar (c : Char) : Char :=
  if 'A' ≤ c && c ≤ 'Z' then Char.ofNat (c.toNat + 0x20)
  else if 0x410 ≤ c.toNat && c.toNat ≤ 0x42F then Char.ofNat (c.toNat + 0x20)
  else if c.toNat == 0x401 then Char.ofNat 0x451
  else c

/-- Models the JavaScript `s.toLowerCase()` builtin on the alphabets in use. -/
def lowerStr (s : String) : String :=
  String.mk (s.data.map foldChar)

/-! ## src/utils/model-config.ts -/

/-- The `ModelConfig` interface of model-config.ts.  The optional TypeScript
field `isDefault?: boolean` is a `Bool` defaulting to `false` (absent and
`undefined` are both falsy). -/
structure ModelConfig where
  name : String
  displayName : String
  selectorText : String
  isDefault : Bool := false
deriving Repr, DecidableEq

/-- The constant `AVAILABLE_MODELS` catalog of model-config.ts. -/
def AVAILABLE_MODELS : List ModelConfig := [
  { name := "claude-sonnet-4.6", displayName := "Claude Sonnet 4.6",
    selectorText := "Claude Sonnet 4.6", isDefault := true },
  { name := "gemini-3.1-pro", displayName := "Gemini 3.1 Pro",
    selectorText := "Gemini 3.1 Pro" },
  { name := "gemini-3-flash", displayName := "Gemini 3 Flash",
    selectorText := "Gemini 3 Flash" },
  { name := "gpt-5.2", displayName := "GPT-5.2", selectorText := "GPT-5.2" },
  { name := "grok-4.1", displayName := "Grok 4.1", selectorText := "Grok 4.1" },
  { name := "kimi-k2.5", displayName := "Kimi K2.5", selectorText := "Kimi K2.5" },
  { name := "claude-opus-4.6", displayName := "Claude Opus 4.6",
    selectorText := "Claude Opus 4.6" },
  { name := "reasoning", displayName := "Reasoning", selectorText := "Reasoning" },
  { name := "sonar", displayName := "Sonar", selectorText := "Sonar" }]

/-- The `BANNED_MODEL_PATTERNS` constant of model-config.ts: each regex there
has the form `^word$` with the `i` flag, so it is fully described by its word. -/
def BANNED_MODEL_PATTERNS : List String :=
  ["model", "sonar", "модель", "modelo", "モデル"]

/-- `pattern.test(s)` for a banned pattern `^pat$` with the `i` flag:
case-insensitive equality of the whole string with the pattern word. -/
def bannedPatternTest (pat s : String) : Bool :=
  lowerStr s == lowerStr pat

/-- `isModelAllowed` of model-config.ts: the trimmed input must match none of
the banned patterns. -/
def isModelAllowed (modelName : String) : Bool :=
  !(BANNED_MODEL_PATTERNS.any fun pat => bannedPatternTest pat (trimStr modelName))

/-- `getModelConfig` of model-config.ts: normalize, then try the `name`,
`displayName` and `selectorText` columns in that order, first hit winning. -/
def getModelConfig (modelName : String) : Option ModelConfig :=
  let normalizedName := trimStr (lowerStr modelName)
  match AVAILABLE_MODELS.find? (fun m => lowerStr m.name == normalizedName) with
  | some m => some m
  | none =>
    match AVAILABLE_MODELS.find? (fun m => lowerStr m.displayName == normalizedName) with
    | some m => some m
    | none => AVAILABLE_MODELS.find? (fun m => lowerStr m.selectorText == normalizedName)

/-- `getDefaultModel` of model-config.ts; the `throw` on a catalog without a
default entry is the `Except.error` branch. -/
def getDefaultModel : Except String ModelConfig :=
  match AVAILABLE_MODELS.find? (fun m => m.isDefault) with
  | some m => Except.ok m
  | none => Except.error "No default model configured"

/-- Body of `getValidatedModel` of model-config.ts with exceptions made
explicit: the only exception that could arise is the one of
`getDefaultModel`.  `none` and `some ""` are the falsy inputs of the
`if (!modelName)` guard. -/
def getValidatedModelE (modelName : Option String) : Except String String :=
  match modelName with
  | none => Except.map (fun m => m.name) getDefaultModel
  | some s =>
    if s == "" then Except.map (fun m => m.name) getDefaultModel
    else
      match getModelConfig s with
      | none => Except.map (fun m => m.name) getDefaultModel
      | some modelConfig =>
        if !(isModelAllowed modelConfig.name) then
          Except.map (fun m => m.name) getDefaultModel
        else Except.ok modelConfig.name

/-- `getValidatedModel` of model-config.ts.  The error branch is proved
unreachable on this catalog (claim C1), so extracting with a dummy value is
faithful. -/
def getValidatedModel (modelName : Option String) : String :=
  match getValidatedModelE modelName with
  | Except.ok s => s
  | Except.error _ => ""

/-! ## Page model for the UI interaction path

The selection engine of src/utils/model-selection.ts and the reasoning toggle
of src/utils/model-reasoning-toggle.ts read and click a live DOM through
puppeteer primitives.  A page snapshot is modelled by `PageState`: the button
list seen by `querySelectorAll("button")`, the full element list seen by
`querySelectorAll("*")`, the reasoning toggle matched by
`button[value="on"][role="switch"]`, and a `broken` flag meaning the
page/browser connection is down, in which case every page primitive
(`evaluate`, `click`, `$$`, `$`) throws.  A click or a settle wait hands the
page to the environment `Env`, the unversioned web application, which answers
with the next snapshot; the engine records every dispatched click and wait in
an ordered trace of `UIAction`. -/

/-- One DOM element as observed by the engine: its tag, its `textContent`
(`none` models `null`), its `aria-checked` attribute (`none` models an absent
attribute). -/
structure Elem where
  tag : String
  text : Option String
  ariaChecked : Option String := none
deriving Repr, DecidableEq

/-- A snapshot of the live page. -/
structure PageState where
  buttons : List Elem
  allElems : List Elem
  reasoningToggle : Option Elem := none
  broken : Bool := false
deriving Repr, DecidableEq

/-- A page mutation dispatched by the engine, in dispatch order. -/
inductive UIAction where
  | clickMore
  | clickElem (e : Elem)
  | clickToggle
  | wait (ms : Nat)
deriving Repr, DecidableEq

/-- The web application: how the page responds to a dispatched action. -/
abbrev Env := PageState → UIAction → PageState

/-- Result of one engine run: the value of the try block (`Except.error`
when a page primitive threw), the final page snapshot, and the ordered trace
of dispatched actions. -/
abbrev EngineResult := Except String Bool × PageState × List UIAction

/-- The error message of a page primitive on a broken page. -/
def pageErr : String := "page disconnected"

/-! ## src/utils/model-selection.ts, first version (lines 1 to 158) -/

/-- The word alternatives of the regex `/(Claude|Gemini|Sonar|GPT|Grok|More)/`
used by `isModelSelectionAvailable` and by the detection step of
`setModelFinal`. -/
def availabilityWords : List String :=
  ["Claude", "Gemini", "Sonar", "GPT", "Grok", "More"]

/-- The word alternatives of the regex `/(Claude|Gemini|Sonar|GPT|Grok|Kimi)/`
used by `getCurrentlySelectedModel`. -/
def currentModelWords : List String :=
  ["Claude", "Gemini", "Sonar", "GPT", "Grok", "Kimi"]

/-- `/(w1|w2|...)/.test(t)`: some word occurs somewhere in `t`. -/
def matchesAnyWord (words : List String) (t : String) : Bool :=
  words.any fun w => strContains t w

/-- Body of `isModelSelectionAvailable` (lines 36 to 56): scan all buttons for
a trimmed, non-empty text matching the model-word regex.  The same body is
shared verbatim by the final version (lines 424 to 437). -/
def isModelSelectionAvailableE (p : PageState) : Except String Bool :=
  if p.broken then Except.error pageErr
  else Except.ok (p.buttons.any fun b =>
    match b.text with
    | some raw =>
      let t := trimStr raw
      t != "" && matchesAnyWord availabilityWords t
    | none => false)

/-- `isModelSelectionAvailable` (first version): the catch clause returns
`false`. -/
def isModelSelectionAvailable (p : PageState) : Bool :=
  match isModelSelectionAvailableE p with
  | Except.ok b => b
  | Except.error _ => false

/-- `isModelSelectionAvailable` of the final version (lines 424 to 437):
identical logic, logging aside. -/
def isModelSelectionAvailableFinal (p : PageState) : Bool :=
  match isModelSelectionAvailableE p with
  | Except.ok b => b
  | Except.error _ => false

/-- Body of `getCurrentlySelectedModel` (lines 61 to 84): first button whose
trimmed text is non-empty, matches the model-word regex and is not exactly
`More`. -/
def getCurrentlySelectedModelE (p : PageState) : Except String (Option String) :=
  if p.broken then Except.error pageErr
  else Except.ok (p.buttons.findSome? fun b =>
    match b.text with
    | some raw =>
      let t := trimStr raw
      if t != "" && matchesAnyWord currentModelWords t && t != "More" then some t
      else none
    | none => none)

/-- `getCurrentlySelectedModel` (lines 61 to 84): the catch clause returns
`null`. -/
def getCurrentlySelectedModel (p : PageState) : Option String :=
  match getCurrentlySelectedModelE p with
  | Except.ok r => r
  | Except.error _ => none

/-- The `hasMore` probe of `setModel` (lines 101 to 104): some button has
trimmed text exactly `More`. -/
def hasMoreButton (p : PageState) : Bool :=
  p.buttons.any fun b =>
    match b.text with
    | some raw => trimStr raw == "More"
    | none => false

/-- The search-and-click evaluate of `setModel` (lines 113 to 123): the first
button whose trimmed, non-empty text contains the target display name. -/
def searchButtons (p : PageState) (name : String) : Option Elem :=
  p.buttons.findSome? fun b =>
    match b.text with
    | some raw =>
      let t := trimStr raw
      if t != "" && strContains t name then some b else none
    | none => none

/-- Search phase of `setModel` (lines 112 to 132): search the buttons, click
the hit, settle 1000 ms, report whether a hit was found.  `tr` is the trace
accumulated before this phase. -/
def setModelSearchPhase (env : Env) (p : PageState) (name : String)
    (tr : List UIAction) : EngineResult :=
  if p.broken then (Except.error pageErr, p, tr)
  else
    match searchButtons p name with
    | some b =>
      let p1 := env p (UIAction.clickElem b)
      if p1.broken then (Except.error pageErr, p1, tr ++ [UIAction.clickElem b])
      else
        let p2 := env p1 (UIAction.wait 1000)
        (Except.ok true, p2, tr ++ [UIAction.clickElem b, UIAction.wait 1000])
    | none => (Except.ok false, p, tr)

/-- Body of `setModel` (lines 89 to 139): detect the current model, stop if it
already contains the target, otherwise optionally expand the `More` list and
run the search phase.  The expand step at line 108 is
`page.click('button:has-text("More")')`: `:has-text` is a Playwright-only
pseudo-class that `document.querySelector` rejects as an invalid selector, so
in stock puppeteer this call throws unconditionally, before any click is
dispatched, and the search phase is never reached when a More button is
present. -/
def setModelRun (env : Env) (p : PageState) (modelDisplayName : String) :
    EngineResult :=
  let current := getCurrentlySelectedModel p
  if (match current with
      | some c => strContains c modelDisplayName
      | none => false) then
    (Except.ok true, p, [])
  else if p.broken then (Except.error pageErr, p, [])
  else if hasMoreButton p then
    (Except.error "not a valid selector", p, [])
  else setModelSearchPhase env p modelDisplayName []

/-- `setModel` (lines 89 to 139): the catch clause returns `false`. -/
def setModel (env : Env) (p : PageState) (modelDisplayName : String) :
    Bool × PageState × List UIAction :=
  match setModelRun env p modelDisplayName with
  | (Except.ok b, q, tr) => (b, q, tr)
  | (Except.error _, q, tr) => (false, q, tr)

/-! ## src/utils/model-reasoning-toggle.ts -/

/-- `isReasoningToggleAvailable` (lines 15 to 23): `page.$` of the toggle
selector; the catch clause returns `false`. -/
def isReasoningToggleAvailable (p : PageState) : Bool :=
  if p.broken then false else p.reasoningToggle.isSome

/-- Body of `enableReasoningMode` (lines 29 to 56): read `aria-checked`; if
already `true` stop, else `page.click` the toggle (which throws when the
toggle is absent) and settle 500 ms. -/
def enableReasoningModeRun (env : Env) (p : PageState) : EngineResult :=
  if p.broken then (Except.error pageErr, p, [])
  else
    let isEnabled :=
      match p.reasoningToggle with
      | some t => t.ariaChecked == some "true"
      | none => false
    if isEnabled then (Except.ok true, p, [])
    else
      match p.reasoningToggle with
      | none => (Except.error "No node found for selector", p, [])
      | some _ =>
        let p1 := env p UIAction.clickToggle
        if p1.broken then (Except.error pageErr, p1, [UIAction.clickToggle])
        else
          let p2 := env p1 (UIAction.wait 500)
          (Except.ok true, p2, [UIAction.clickToggle, UIAction.wait 500])

/-- `enableReasoningMode` (lines 29 to 56): the catch clause returns
`false`. -/
def enableReasoningMode (env : Env) (p : PageState) :
    Bool × PageState × List UIAction :=
  match enableReasoningModeRun env p with
  | (Except.ok b, q, tr) => (b, q, tr)
  | (Except.error _, q, tr) => (false, q, tr)

/-! ## src/utils/model-selection.ts, final version (lines 411 to 543) -/

/-- Detection evaluate of `setModelFinal` (lines 447 to 456): first button
whose trimmed, non-empty text matches the model-word regex (the `More` label
included). -/
def detectCurrentFinal (p : PageState) : Option String :=
  p.buttons.findSome? fun b =>
    match b.text with
    | some raw =>
      let t := trimStr raw
      if t != "" && matchesAnyWord availabilityWords t then some t else none
    | none => none

/-- Search evaluate of `setModelFinal` (lines 477 to 501): among all elements
except `SCRIPT` and `STYLE` whose text contains the target, the first whose
trimmed text contains the target. -/
def searchAllElems (p : PageState) (name : String) : Option Elem :=
  (p.allElems.filter fun el =>
      (match el.text with
       | some t => strContains t name
       | none => false) && el.tag != "SCRIPT" && el.tag != "STYLE").find?
    fun el =>
      match el.text with
      | some t => strContains (trimStr t) name
      | none => false

/-- The word of the Russian reasoning menu item checked at line 508. -/
def reasoningWord : String := "Рассуждение"

/-- Tail of the found branch of `setModelFinal` (lines 503 to 517): settle
1000 ms, then optionally probe and enable the reasoning toggle, then report
success.  `pC` is the page right after the activation click, `trC` the trace
so far. -/
def setModelFinalFoundTail (env : Env) (pC : PageState) (name : String)
    (trC : List UIAction) : EngineResult :=
  if pC.broken then (Except.error pageErr, pC, trC)
  else
    let pD := env pC (UIAction.wait 1000)
    let trD := trC ++ [UIAction.wait 1000]
    if strContains name "Claude" || strContains name reasoningWord then
      if isReasoningToggleAvailable pD then
        let r := enableReasoningMode env pD
        (Except.ok true, r.2.1, trD ++ r.2.2)
      else (Except.ok true, pD, trD)
    else (Except.ok true, pD, trD)

/-- Body of `setModelFinal` (lines 442 to 526): detect the current text, stop
if it already contains the target; only when the detected text is exactly
`More` click it, settle 1500 ms, search all elements and activate the hit;
in every other case report failure. -/
def setModelFinalRun (env : Env) (p : PageState) (modelDisplayName : String) :
    EngineResult :=
  if p.broken then (Except.error pageErr, p, [])
  else
    let currentText := detectCurrentFinal p
    if (match currentText with
        | some t => strContains t modelDisplayName
        | none => false) then
      (Except.ok true, p, [])
    else if currentText == some "More" then
      let pA := if hasMoreButton p then env p UIAction.clickMore else p
      let trA := if hasMoreButton p then [UIAction.clickMore] else []
      if pA.broken then (Except.error pageErr, pA, trA)
      else
        let pB := env pA (UIAction.wait 1500)
        let trB := trA ++ [UIAction.wait 1500]
        if pB.broken then (Except.error pageErr, pB, trB)
        else
          match searchAllElems pB modelDisplayName with
          | some el =>
            let pC := env pB (UIAction.clickElem el)
            setModelFinalFoundTail env pC modelDisplayName
              (trB ++ [UIAction.clickElem el])
          | none => (Except.ok false, pB, trB)
    else (Except.ok false, p, [])

/-- `setModelFinal` (lines 442 to 526): the catch clause returns `false`. -/
def setModelFinal (env : Env) (p : PageState) (modelDisplayName : String) :
    Bool × PageState × List UIAction :=
  match setModelFinalRun env p modelDisplayName with
  | (Except.ok b, q, tr) => (b, q, tr)
  | (Except.error _, q, tr) => (false, q, tr)

/-- `selectModel` (lines 144 to 158): validate, short-circuit when the UI is
unavailable, otherwise attempt `setModel`; the validated name is returned in
every case. -/
def selectModel (env : Env) (p : PageState) (model : String) :
    String × PageState × List UIAction :=
  let validatedModel := getValidatedModel (some model)
  if !(isModelSelectionAvailable p) then (validatedModel, p, [])
  else
    let r := setModel env p validatedModel
    (validatedModel, r.2.1, r.2.2)

/-- `selectModelFinal` (lines 531 to 543): validate, resolve the selector
text (`modelConfig?.selectorText || validatedModel`), short-circuit when the
UI is unavailable, otherwise attempt `setModelFinal`; the validated name is
returned in every case. -/
def selectModelFinal (env : Env) (p : PageState) (model : String) :
    String × PageState × List UIAction :=
  let validatedModel := getValidatedModel (some model)
  let modelConfig := getModelConfig validatedModel
  if !(isModelSelectionAvailableFinal p) then (validatedModel, p, [])
  else
    let target :=
      match modelConfig with
      | some c => if c.selectorText == "" then validatedModel else c.selectorText
      | none => validatedModel
    let r := setModelFinal env p target
    (validatedModel, r.2.1, r.2.2)

/-! ## Helper lemmas and concrete fixtures -/

/-- A web application that never changes the page: used to instantiate the
environment parameter in concrete runs. -/
def envId : Env := fun p _ => p

/-- The canonical names `getValidatedModel` can return: every catalog name
except the banned `sonar`. -/
def returnableNames : List String :=
  ["claude-sonnet-4.6", "gemini-3.1-pro", "gemini-3-flash", "gpt-5.2",
   "grok-4.1", "kimi-k2.5", "claude-opus-4.6", "reasoning"]

/-- The empty page: no buttons, no elements, no toggle. -/
def pEmpty : PageState := { buttons := [], allElems := [] }

/-- A page already displaying the default model. -/
def pC6 : PageState :=
  { buttons := [{ tag := "BUTTON", text := some "Claude Sonnet 4.6" }],
    allElems := [] }

/-- A disconnected page. -/
def pBroken : PageState := { buttons := [], allElems := [], broken := true }

/-- A page whose reasoning toggle is already switched on. -/
def pToggleOn : PageState :=
  { buttons := [], allElems := [],
    reasoningToggle := some
      { tag := "BUTTON", text := some "", ariaChecked := some "true" } }

/-- The DOM element carrying the target model label in the C7 scenario. -/
def elemTargetC7 : Elem := { tag := "DIV", text := some "Claude Sonnet 4.6" }

/-- A page whose model button already shows a different model, with the
target label present elsewhere in the document. -/
def pageC7 : PageState :=
  { buttons := [{ tag := "BUTTON", text := some "Gemini 3.1 Pro" }],
    allElems := [elemTargetC7] }

/-- A page showing the collapsed More affordance, with the target label
present in the document. -/
def pageC7More : PageState :=
  { buttons := [{ tag := "BUTTON", text := some "More" }],
    allElems := [elemTargetC7] }

theorem defaultName_eval :
    Except.map (fun m : ModelConfig => m.name) getDefaultModel
      = Except.ok "claude-sonnet-4.6" := rfl

theorem getModelConfig_mem {s : String} {cfg : ModelConfig}
    (h : getModelConfig s = some cfg) : cfg ∈ AVAILABLE_MODELS := by
  simp only [getModelConfig] at h
  split at h
  · next m hm =>
      cases h
      exact List.mem_of_find?_eq_some hm
  · next =>
      split at h
      · next m hm =>
          cases h
          exact List.mem_of_find?_eq_some hm
      · next => exact List.mem_of_find?_eq_some h

theorem getValidatedModelE_ok (m : Option String) :
    getValidatedModelE m = Except.ok (getValidatedModel m) := by
  have hok : ∃ v, getValidatedModelE m = Except.ok v := by
    unfold getValidatedModelE
    match m with
    | none => exact ⟨_, defaultName_eval⟩
    | some s =>
      by_cases hs : s = ""
      · simp only [hs, beq_self_eq_true, if_true, ite_true]
        exact ⟨_, defaultName_eval⟩
      · simp only [hs, beq_iff_eq, if_neg, ite_false]
        match hcfg : getModelConfig s with
        | none => exact ⟨_, defaultName_eval⟩
        | some cfg =>
          by_cases hallow : isModelAllowed cfg.name
          · simp [hallow]
          · simp [hallow]
            exact ⟨_, defaultName_eval⟩
  obtain ⟨v, hv⟩ := hok
  rw [hv]
  unfold getValidatedModel
  rw [hv]

theorem getValidatedModel_mem_returnable (m : Option String) :
    getValidatedModel m ∈ returnableNames := by
  cases m with
  | none => decide
  | some s =>
    by_cases hs : s = ""
    · subst hs; decide
    · unfold getValidatedModel getValidatedModelE
      simp only [hs, beq_iff_eq, ite_false, if_neg]
      match hcfg : getModelConfig s with
      | none => rw [defaultName_eval]; decide
      | some cfg =>
        have hmem : cfg ∈ AVAILABLE_MODELS := getModelConfig_mem hcfg
        by_cases hallow : isModelAllowed cfg.name
        · simp only [hallow, Bool.not_true, Bool.false_eq_true, if_false, ite_false]
          have hmono : ∀ c ∈ AVAILABLE_MODELS,
              isModelAllowed c.name = true → c.name ∈ returnableNames := by decide
          exact hmono cfg hmem hallow
        · simp only [Bool.not_eq_true] at hallow
          simp only [hallow, Bool.not_false, if_true, ite_true]
          rw [defaultName_eval]
          decide

theorem getValidatedModel_of_not_found {s : String}
    (h : getModelConfig s = none) :
    getValidatedModel (some s) = "claude-sonnet-4.6" := by
  by_cases hs : s = ""
  · subst hs; decide
  · unfold getValidatedModel getValidatedModelE
    simp only [hs, beq_iff_eq, ite_false, if_neg, h]
    rw [defaultName_eval]

/-! ## Claim theorems -/

/-- Claim C1: getValidatedModel is a total function on optional strings.  The
first conjunct states that the exception branch (the `getDefaultModel` throw)
is unreachable, so the function never fails; the remaining conjuncts give the
four cases: absent or empty input, unresolved input, input resolving to a
policy-rejected entry, and input resolving to an allowed entry. -/
theorem C1_getValidatedModel_total (m : Option String) :
    getValidatedModelE m = Except.ok (getValidatedModel m) ∧
    ((m = none ∨ m = some "") → getValidatedModel m = "claude-sonnet-4.6") ∧
    (∀ s, m = some s → s ≠ "" → getModelConfig s = none →
      getValidatedModel m = "claude-sonnet-4.6") ∧
    (∀ s cfg, m = some s → s ≠ "" → getModelConfig s = some cfg →
      isModelAllowed cfg.name = false →
      getValidatedModel m = "claude-sonnet-4.6") ∧
    (∀ s cfg, m = some s → s ≠ "" → getModelConfig s = some cfg →
      isModelAllowed cfg.name = true → getValidatedModel m = cfg.name) := by
  refine ⟨getValidatedModelE_ok m, ?_, ?_, ?_, ?_⟩
  · rintro (rfl | rfl) <;> decide
  · rintro s rfl hs h
    exact getValidatedModel_of_not_found h
  · rintro s cfg rfl hs hcfg hallow
    unfold getValidatedModel getValidatedModelE
    simp only [hs, beq_iff_eq, ite_false, if_neg, hcfg, hallow, Bool.not_false,
      if_true, ite_true]
    rw [defaultName_eval]
  · rintro s cfg rfl hs hcfg hallow
    unfold getValidatedModel getValidatedModelE
    simp only [hs, beq_iff_eq, ite_false, if_neg, hcfg, hallow, Bool.not_true,
      Bool.false_eq_true, if_false, ite_false]

/-- Claim C1 witness: the banned-entry case at the concrete input `Sonar`,
which resolves to the catalog entry named `sonar` and falls back to the
default. -/
theorem C1_witness : getValidatedModel (some "Sonar") = "claude-sonnet-4.6" :=
  (C1_getValidatedModel_total (some "Sonar")).2.2.2.1 "Sonar"
    { name := "sonar", displayName := "Sonar", selectorText := "Sonar" }
    rfl (by decide) (by decide) (by decide)

/-- Claim C3: isModelAllowed rejects exactly the case-insensitive whole-string
matches of the banned patterns after trimming; substring containment alone
never triggers rejection, witnessed by the two concrete allowed names. -/
theorem C3_isModelAllowed_exact_match (s : String) :
    (isModelAllowed s = false ↔
      ∃ pat ∈ BANNED_MODEL_PATTERNS, lowerStr (trimStr s) = lowerStr pat) ∧
    (∀ w ∈ BANNED_MODEL_PATTERNS, lowerStr (trimStr s) = lowerStr w →
      isModelAllowed s = false) ∧
    ((∀ w ∈ BANNED_MODEL_PATTERNS, lowerStr (trimStr s) ≠ lowerStr w) →
      isModelAllowed s = true) ∧
    isModelAllowed "sonnet" = true ∧
    isModelAllowed "claude-sonnet-4.6" = true := by
  have h : isModelAllowed s = false ↔
      ∃ pat ∈ BANNED_MODEL_PATTERNS, lowerStr (trimStr s) = lowerStr pat := by
    simp [isModelAllowed, bannedPatternTest, List.any_eq_true]
  refine ⟨h, ?_, ?_, by decide, by decide⟩
  · intro w hw heq
    exact h.mpr ⟨w, hw, heq⟩
  · intro hall
    rcases hb : isModelAllowed s with _ | _
    · obtain ⟨pat, hpat, heq⟩ := h.mp hb
      exact absurd heq (hall pat hpat)
    · rfl

/-- Claim C3 witness: the casing variant ` SONAR ` of the banned word `sonar`,
surrounded by whitespace, is rejected. -/
theorem C3_witness : isModelAllowed " SONAR " = false :=
  (C3_isModelAllowed_exact_match " SONAR ").2.1 "sonar" (by decide) (by decide)

/-- Claim C4: the catalog satisfies all four integrity invariants, and
getDefaultModel returns the unique default entry rather than throwing.  The
catalog is a Lean constant, so no operation can mutate it. -/
theorem C4_catalog_invariants :
    (AVAILABLE_MODELS.map (fun m => m.name)).Nodup ∧
    (AVAILABLE_MODELS.map (fun m => m.displayName)).Nodup ∧
    (AVAILABLE_MODELS.filter (fun m => m.isDefault)).length = 1 ∧
    (∀ m ∈ AVAILABLE_MODELS, m.selectorText = m.displayName) ∧
    getDefaultModel = Except.ok
      { name := "claude-sonnet-4.6", displayName := "Claude Sonnet 4.6",
        selectorText := "Claude Sonnet 4.6", isDefault := true } :=
  ⟨by decide, by decide, by decide, by decide, rfl⟩

/-- Claim C5: getModelConfig matches the lowercased, trimmed input against the
name, displayName and selectorText columns in that order, the first hit
(leftmost entry of the earliest matching column) winning, and returns none
when no column matches; getModelConfig, and with it getValidatedModel, is
case-insensitive. -/
theorem C5_resolution_order (s : String) :
    (∀ m, AVAILABLE_MODELS.find?
        (fun e => lowerStr e.name == trimStr (lowerStr s)) = some m →
      getModelConfig s = some m) ∧
    (AVAILABLE_MODELS.find?
        (fun e => lowerStr e.name == trimStr (lowerStr s)) = none →
      ∀ m, AVAILABLE_MODELS.find?
          (fun e => lowerStr e.displayName == trimStr (lowerStr s)) = some m →
        getModelConfig s = some m) ∧
    (AVAILABLE_MODELS.find?
        (fun e => lowerStr e.name == trimStr (lowerStr s)) = none →
      AVAILABLE_MODELS.find?
        (fun e => lowerStr e.displayName == trimStr (lowerStr s)) = none →
      getModelConfig s = AVAILABLE_MODELS.find?
        (fun e => lowerStr e.selectorText == trimStr (lowerStr s))) ∧
    (∀ t, trimStr (lowerStr s) = trimStr (lowerStr t) →
      getModelConfig s = getModelConfig t) ∧
    getValidatedModel (some "GEMINI-3.1-PRO")
      = getValidatedModel (some "gemini-3.1-pro") := by
  refine ⟨?_, ?_, ?_, ?_, by decide⟩
  · intro m hm
    simp only [getModelConfig]
    rw [hm]
  · intro h1 m hm
    simp only [getModelConfig]
    rw [h1, hm]
  · intro h1 h2
    simp only [getModelConfig]
    rw [h1, h2]
  · intro t ht
    simp only [getModelConfig]
    rw [ht]

/-- Claim C5 witness: the canonical-identifier column wins at the concrete
input `GPT-5.2`. -/
theorem C5_witness : getModelConfig "GPT-5.2" = some
    { name := "gpt-5.2", displayName := "GPT-5.2", selectorText := "GPT-5.2" } :=
  (C5_resolution_order "GPT-5.2").1
    { name := "gpt-5.2", displayName := "GPT-5.2", selectorText := "GPT-5.2" }
    (by decide)

/-- Claim C10: getValidatedModel is idempotent; every value it returns is a
fixed point, is never the banned catalog name `sonar`, and resolves to its
own catalog entry already at the first matching step (the `name` column),
that entry passing the ban policy. -/
theorem C10_getValidatedModel_idempotent (x : Option String) :
    getValidatedModel (some (getValidatedModel x)) = getValidatedModel x ∧
    getValidatedModel x ≠ "sonar" ∧
    (∃ cfg, AVAILABLE_MODELS.find?
        (fun e => lowerStr e.name == trimStr (lowerStr (getValidatedModel x)))
        = some cfg ∧
      getModelConfig (getValidatedModel x) = some cfg ∧
      cfg.name = getValidatedModel x ∧ isModelAllowed cfg.name = true) := by
  have hmem := getValidatedModel_mem_returnable x
  have hfix : ∀ n ∈ returnableNames, getValidatedModel (some n) = n := by decide
  have hsur : ∀ n ∈ returnableNames,
      (match AVAILABLE_MODELS.find?
          (fun e => lowerStr e.name == trimStr (lowerStr n)) with
       | some cfg => cfg.name == n && isModelAllowed cfg.name
       | none => false) = true := by decide
  refine ⟨hfix _ hmem, ?_, ?_⟩
  · intro hcon
    rw [hcon] at hmem
    exact absurd hmem (by decide)
  · have h := hsur _ hmem
    cases hc : AVAILABLE_MODELS.find?
        (fun e => lowerStr e.name == trimStr (lowerStr (getValidatedModel x))) with
    | none => rw [hc] at h; simp at h
    | some cfg =>
      rw [hc] at h
      simp only [Bool.and_eq_true, beq_iff_eq] at h
      refine ⟨cfg, rfl, ?_, h.1, h.2⟩
      simp only [getModelConfig]
      rw [hc]

/-- Claim C2: for every page, environment and raw input, both selection entry
points return exactly the validated model: a catalog name, never empty; and
whenever the raw input resolves to no catalog entry, the returned value
differs from the raw input. -/
theorem C2_selection_returns_validated (env : Env) (p : PageState) (m : String) :
    (selectModelFinal env p m).1 = getValidatedModel (some m) ∧
    (selectModel env p m).1 = getValidatedModel (some m) ∧
    getValidatedModel (some m) ∈ AVAILABLE_MODELS.map (fun e => e.name) ∧
    getValidatedModel (some m) ≠ "" ∧
    (getModelConfig m = none →
      (selectModelFinal env p m).1 ≠ m ∧ (selectModel env p m).1 ≠ m) := by
  have hmem := getValidatedModel_mem_returnable (some m)
  have h1 : (selectModelFinal env p m).1 = getValidatedModel (some m) := by
    unfold selectModelFinal
    cases h : isModelSelectionAvailableFinal p <;> simp [h]
  have h2 : (selectModel env p m).1 = getValidatedModel (some m) := by
    unfold selectModel
    cases h : isModelSelectionAvailable p <;> simp [h]
  refine ⟨h1, h2, ?_, ?_, ?_⟩
  · have hsub : ∀ n ∈ returnableNames,
        n ∈ AVAILABLE_MODELS.map (fun e => e.name) := by decide
    exact hsub _ hmem
  · have hne : ∀ n ∈ returnableNames, n ≠ "" := by decide
    exact hne _ hmem
  · intro hnone
    have hv := getValidatedModel_of_not_found hnone
    have hgoal : getValidatedModel (some m) ≠ m := by
      rw [hv]
      intro hcon
      rw [← hcon] at hnone
      exact absurd hnone (by decide)
    rw [h1, h2]
    exact ⟨hgoal, hgoal⟩

/-- Claim C2 witness: at the unresolvable concrete input `GPT-X` both entry
points return the default name, which differs from the raw input. -/
theorem C2_witness :
    (selectModelFinal envId pEmpty "GPT-X").1 ≠ "GPT-X" ∧
    (selectModel envId pEmpty "GPT-X").1 ≠ "GPT-X" :=
  (C2_selection_returns_validated envId pEmpty "GPT-X").2.2.2.2 (by decide)

/-- Claim C6: when the detected active-model text already contains the target
display label, setModelFinal and setModel return true with no dispatched
action and an unchanged page, and a second invocation on the resulting page
again dispatches nothing. -/
theorem C6_already_matches_noop (env : Env) (p : PageState) (name : String)
    (hnb : p.broken = false)
    (tF : String) (hdet : detectCurrentFinal p = some tF)
    (hFc : strContains tF name = true)
    (cS : String) (hcur : getCurrentlySelectedModel p = some cS)
    (hSc : strContains cS name = true) :
    setModelFinal env p name = (true, p, []) ∧
    setModel env p name = (true, p, []) ∧
    setModelFinal env (setModelFinal env p name).2.1 name = (true, p, []) ∧
    setModel env (setModel env p name).2.1 name = (true, p, []) := by
  have h1 : setModelFinal env p name = (true, p, []) := by
    unfold setModelFinal setModelFinalRun
    simp [hnb, hdet, hFc]
  have h2 : setModel env p name = (true, p, []) := by
    unfold setModel setModelRun
    simp [hcur, hSc]
  refine ⟨h1, h2, ?_, ?_⟩
  · rw [h1]; exact h1
  · rw [h2]; exact h2

/-- Claim C6 witness: on a page already showing `Claude Sonnet 4.6`, selecting
that model twice dispatches no action. -/
theorem C6_witness :
    setModelFinal envId pC6 "Claude Sonnet 4.6" = (true, pC6, []) ∧
    setModel envId pC6 "Claude Sonnet 4.6" = (true, pC6, []) := by
  have h := C6_already_matches_noop envId pC6 "Claude Sonnet 4.6" rfl
    "Claude Sonnet 4.6" (by decide) (by decide)
    "Claude Sonnet 4.6" (by decide) (by decide)
  exact ⟨h.1, h.2.1⟩

/-- Claim C8: every runtime error in the UI interaction path is caught where
it occurs: whenever the try-block body of an operation ends in a thrown
error, the exported operation returns false (or null for the current-model
read) instead of propagating; on a disconnected page all five operations do
fail and return their fallback values. -/
theorem C8_errors_converted (env : Env) (p : PageState) (name : String) :
    (∀ e q tr, setModelRun env p name = (Except.error e, q, tr) →
      setModel env p name = (false, q, tr)) ∧
    (∀ e q tr, setModelFinalRun env p name = (Except.error e, q, tr) →
      setModelFinal env p name = (false, q, tr)) ∧
    (∀ e, isModelSelectionAvailableE p = Except.error e →
      isModelSelectionAvailable p = false ∧
      isModelSelectionAvailableFinal p = false) ∧
    (∀ e, getCurrentlySelectedModelE p = Except.error e →
      getCurrentlySelectedModel p = none) ∧
    (∀ e q tr, enableReasoningModeRun env p = (Except.error e, q, tr) →
      enableReasoningMode env p = (false, q, tr)) ∧
    (p.broken = true →
      setModel env p name = (false, p, []) ∧
      setModelFinal env p name = (false, p, []) ∧
      isModelSelectionAvailable p = false ∧
      getCurrentlySelectedModel p = none ∧
      enableReasoningMode env p = (false, p, [])) := by
  refine ⟨?_, ?_, ?_, ?_, ?_, ?_⟩
  · intro e q tr h
    unfold setModel
    rw [h]
  · intro e q tr h
    unfold setModelFinal
    rw [h]
  · intro e h
    unfold isModelSelectionAvailable isModelSelectionAvailableFinal
    rw [h]
    exact ⟨rfl, rfl⟩
  · intro e h
    unfold getCurrentlySelectedModel
    rw [h]
  · intro e q tr h
    unfold enableReasoningMode
    rw [h]
  · intro hb
    refine ⟨?_, ?_, ?_, ?_, ?_⟩
    · unfold setModel setModelRun
      simp [getCurrentlySelectedModel, getCurrentlySelectedModelE, hb]
    · unfold setModelFinal setModelFinalRun
      simp [hb]
    · unfold isModelSelectionAvailable isModelSelectionAvailableE
      simp [hb]
    · unfold getCurrentlySelectedModel getCurrentlySelectedModelE
      simp [hb]
    · unfold enableReasoningMode enableReasoningModeRun
      simp [hb]

/-- Claim C8 witness: on a disconnected page every operation fails internally
and returns its fallback value instead of raising. -/
theorem C8_witness :
    setModel envId pBroken "Claude Sonnet 4.6" = (false, pBroken, []) ∧
    setModelFinal envId pBroken "Claude Sonnet 4.6" = (false, pBroken, []) ∧
    isModelSelectionAvailable pBroken = false ∧
    getCurrentlySelectedModel pBroken = none ∧
    enableReasoningMode envId pBroken = (false, pBroken, []) :=
  (C8_errors_converted envId pBroken "Claude Sonnet 4.6").2.2.2.2.2 rfl

/-- Claim C9: enableReasoningMode reads aria-checked first and is an
idempotent no-op when the toggle is already on; otherwise it clicks and
settles 500 ms before returning true; any failure (toggle absent, page
disconnected before or after the click) yields false, never an exception. -/
theorem C9_enableReasoningMode (env : Env) (p : PageState) :
    (∀ t, p.broken = false → p.reasoningToggle = some t →
      t.ariaChecked = some "true" →
      enableReasoningMode env p = (true, p, [])) ∧
    (∀ t, p.broken = false → p.reasoningToggle = some t →
      t.ariaChecked ≠ some "true" →
      (env p UIAction.clickToggle).broken = false →
      enableReasoningMode env p =
        (true, env (env p UIAction.clickToggle) (UIAction.wait 500),
          [UIAction.clickToggle, UIAction.wait 500])) ∧
    (∀ t, p.broken = false → p.reasoningToggle = some t →
      t.ariaChecked ≠ some "true" →
      (env p UIAction.clickToggle).broken = true →
      enableReasoningMode env p =
        (false, env p UIAction.clickToggle, [UIAction.clickToggle])) ∧
    (p.broken = false → p.reasoningToggle = none →
      enableReasoningMode env p = (false, p, [])) ∧
    (p.broken = true → enableReasoningMode env p = (false, p, [])) := by
  refine ⟨?_, ?_, ?_, ?_, ?_⟩
  · intro t hnb ht hon
    unfold enableReasoningMode enableReasoningModeRun
    simp [hnb, ht, hon]
  · intro t hnb ht hoff hc
    unfold enableReasoningMode enableReasoningModeRun
    simp [hnb, ht, hoff, hc]
  · intro t hnb ht hoff hc
    unfold enableReasoningMode enableReasoningModeRun
    simp [hnb, ht, hoff, hc]
  · intro hnb ht
    unfold enableReasoningMode enableReasoningModeRun
    simp [hnb, ht]
  · intro hb
    unfold enableReasoningMode enableReasoningModeRun
    simp [hb]

/-- Claim C9 witness: with the toggle already on, enableReasoningMode returns
true and clicks nothing. -/
theorem C9_witness : enableReasoningMode envId pToggleOn = (true, pToggleOn, []) :=
  (C9_enableReasoningMode envId pToggleOn).1
    { tag := "BUTTON", text := some "", ariaChecked := some "true" } rfl rfl rfl

theorem hasMore_of_detect_more {p : PageState}
    (h : detectCurrentFinal p = some "More") : hasMoreButton p = true := by
  unfold detectCurrentFinal at h
  obtain ⟨b, hb, hf⟩ := List.exists_of_findSome?_eq_some h
  simp only [hasMoreButton, List.any_eq_true]
  refine ⟨b, hb, ?_⟩
  rcases hbt : b.text with _ | raw
  · rw [hbt] at hf; simp at hf
  · rw [hbt] at hf
    simp only at hf
    split at hf
    · next => injection hf with hf; simp [hbt, hf]
    · next => cases hf

/-- Claim C7 counterexample: on a page whose detected control shows
`Gemini 3.1 Pro` (not the `More` affordance), with the target label
`Claude Sonnet 4.6` present and findable among the DOM elements,
setModelFinal returns false with an empty action trace: the Search step is
never reached even though the target is not already selected and no click is
dispatched, contradicting the claim that Search is reached in every
invocation without a `More` affordance. -/
theorem C7_counterexample :
    detectCurrentFinal pageC7 = some "Gemini 3.1 Pro" ∧
    strContains "Gemini 3.1 Pro" "Claude Sonnet 4.6" = false ∧
    searchAllElems pageC7 "Claude Sonnet 4.6" = some elemTargetC7 ∧
    setModelFinal envId pageC7 "Claude Sonnet 4.6" = (false, pageC7, []) := by
  decide

/-- Claim C7 (amended): the steps that do execute run strictly in the order
Detect, Expand, Search, Activate, Settle.  In setModel the Search step is
reached whenever the target is not already selected and no More button is
present; when a More button is present, the Expand click uses the
Playwright-only selector `button:has-text("More")`, which puppeteer rejects
as invalid, so the call throws, the catch returns false and Search is never
reached.  In setModelFinal, Search, Activate and Settle are nested inside the
Expand branch, so they are reached only when the detected text is exactly
`More`, and any other non-matching detection returns false with no search and
no click. -/
theorem C7_amended_step_order (env : Env) (p : PageState) (name : String)
    (henv : ∀ q a, (env q a).broken = q.broken)
    (hnb : p.broken = false) :
    (∀ t, detectCurrentFinal p = some t → strContains t name = false →
      t ≠ "More" → setModelFinal env p name = (false, p, [])) ∧
    (detectCurrentFinal p = none → setModelFinal env p name = (false, p, [])) ∧
    (detectCurrentFinal p = some "More" → strContains "More" name = false →
      (match searchAllElems (env (env p UIAction.clickMore) (UIAction.wait 1500))
          name with
       | some el => ∃ q tr, setModelFinal env p name =
           (true, q, UIAction.clickMore :: UIAction.wait 1500 ::
             UIAction.clickElem el :: UIAction.wait 1000 :: tr)
       | none => setModelFinal env p name =
           (false, env (env p UIAction.clickMore) (UIAction.wait 1500),
             [UIAction.clickMore, UIAction.wait 1500]))) ∧
    ((match getCurrentlySelectedModel p with
      | some c => strContains c name
      | none => false) = false →
      hasMoreButton p = false →
      setModel env p name =
        (match searchButtons p name with
         | some b => (true, env (env p (UIAction.clickElem b)) (UIAction.wait 1000),
             [UIAction.clickElem b, UIAction.wait 1000])
         | none => (false, p, []))) ∧
    ((match getCurrentlySelectedModel p with
      | some c => strContains c name
      | none => false) = false →
      hasMoreButton p = true →
      setModel env p name = (false, p, [])) := by
  refine ⟨?_, ?_, ?_, ?_, ?_⟩
  · intro t hdet hnc hnm
    unfold setModelFinal setModelFinalRun
    simp [hnb, hdet, hnc, hnm]
  · intro hdet
    unfold setModelFinal setModelFinalRun
    simp [hnb, hdet]
  · intro hdet hnc
    have hm : hasMoreButton p = true := hasMore_of_detect_more hdet
    have hA : (env p UIAction.clickMore).broken = false := by rw [henv]; exact hnb
    have hB : (env (env p UIAction.clickMore) (UIAction.wait 1500)).broken
        = false := by rw [henv, henv]; exact hnb
    cases hse : searchAllElems
        (env (env p UIAction.clickMore) (UIAction.wait 1500)) name with
    | none =>
      unfold setModelFinal setModelFinalRun
      simp [hnb, hdet, hnc, hm, hA, hB, hse]
    | some el =>
      have hC : (env (env (env p UIAction.clickMore) (UIAction.wait 1500))
          (UIAction.clickElem el)).broken = false := by
        rw [henv, henv, henv]; exact hnb
      unfold setModelFinal setModelFinalRun setModelFinalFoundTail
      simp only [hnb, Bool.false_eq_true, if_false, ite_false, hdet, hnc,
        beq_self_eq_true, if_true, ite_true, hm, hA, hB, hse, hC]
      by_cases hw : (strContains name "Claude" || strContains name reasoningWord)
          = true
      · simp only [hw, if_true, ite_true]
        by_cases hrt : isReasoningToggleAvailable
            (env (env (env (env p UIAction.clickMore) (UIAction.wait 1500))
              (UIAction.clickElem el)) (UIAction.wait 1000)) = true
        · simp only [hrt, if_true, ite_true]
          refine ⟨(enableReasoningMode env
              (env (env (env (env p UIAction.clickMore) (UIAction.wait 1500))
                (UIAction.clickElem el)) (UIAction.wait 1000))).2.1,
            (enableReasoningMode env
              (env (env (env (env p UIAction.clickMore) (UIAction.wait 1500))
                (UIAction.clickElem el)) (UIAction.wait 1000))).2.2, ?_⟩
          simp
        · simp only [Bool.not_eq_true] at hrt
          simp only [hrt, Bool.false_eq_true, if_false, ite_false]
          refine ⟨env (env (env (env p UIAction.clickMore) (UIAction.wait 1500))
            (UIAction.clickElem el)) (UIAction.wait 1000), [], ?_⟩
          simp
      · simp only [Bool.not_eq_true] at hw
        simp only [hw, Bool.false_eq_true, if_false, ite_false]
        refine ⟨env (env (env (env p UIAction.clickMore) (UIAction.wait 1500))
          (UIAction.clickElem el)) (UIAction.wait 1000), [], ?_⟩
        simp
  · intro hnm hno
    unfold setModel setModelRun setModelSearchPhase
    cases hsb : searchButtons p name with
    | none => simp [hnm, hnb, hno, hsb]
    | some b =>
      have hC : (env p (UIAction.clickElem b)).broken = false := by
        rw [henv]; exact hnb
      simp [hnm, hnb, hno, hsb, hC]
  · intro hnm hyes
    unfold setModel setModelRun
    simp [hnm, hnb, hyes]

/-- Claim C7 witness: on a page showing the More affordance, the Expand,
Search, Activate and Settle steps run in order and produce the ordered
trace. -/
theorem C7_witness :
    ∃ q tr, setModelFinal envId pageC7More "Claude Sonnet 4.6" =
      (true, q, UIAction.clickMore :: UIAction.wait 1500 ::
        UIAction.clickElem elemTargetC7 :: UIAction.wait 1000 :: tr) :=
  (C7_amended_step_order envId pageC7More "Claude Sonnet 4.6"
    (fun _ _ => rfl) rfl).2.2.1 (by decide) (by decide)

example : trimStr "  SONAR " = "SONAR" := by decide
example : lowerStr "SONAR" = "sonar" := by decide
example : lowerStr "МОДЕЛЬ" = "модель" := by decide
example : isModelAllowed " Sonar " = false := by decide
example : isModelAllowed "sonnet" = true := by decide
example : isModelAllowed "claude-sonnet-4.6" = true := by decide
example : getValidatedModel (some "GEMINI-3.1-PRO") = "gemini-3.1-pro" := by decide
example : getValidatedModel (some "Sonar") = "claude-sonnet-4.6" := by decide
example : getValidatedModel none = "claude-sonnet-4.6" := by decide
example : getModelConfig "Gemini 3 Flash" = some
    { name := "gemini-3-flash", displayName := "Gemini 3 Flash",
      selectorText := "Gemini 3 Flash" } := by decide
